import Mathlib

/-!
Verification of the magazine SQL challenge library: a small object-relational
layer over SQLite with three entities (Author, Magazine, Article), modelled
here as a shallow embedding.  The SQLite database is a record of three row
lists; every operation that touches the store passes the database state
explicitly and returns `Except Err _` to model Python exceptions
(`ValueError` = validation error, `sqlite3.IntegrityError` = storage error).
Row identifiers follow SQLite `INTEGER PRIMARY KEY` assignment: a fresh id is
one more than the largest id in the table.
-/

namespace MagSql

/-- Errors: Python `ValueError` raised by entity validation, and
`sqlite3.IntegrityError`-style errors raised by the store. -/
inductive Err where
  | validation (msg : String)
  | storage (msg : String)
deriving Repr, DecidableEq

/-- A row of the `authors` table: `authors(id INTEGER PRIMARY KEY, name TEXT NOT NULL UNIQUE)`. -/
structure AuthorRow where
  id : Nat
  name : String
deriving Repr, DecidableEq

/-- A row of the `magazines` table:
`magazines(id INTEGER PRIMARY KEY, name TEXT NOT NULL UNIQUE, category TEXT)`. -/
structure MagazineRow where
  id : Nat
  name : String
  category : Option String
deriving Repr, DecidableEq

/-- A row of the `articles` table:
`articles(id, title TEXT NOT NULL, content TEXT, author_id INTEGER NOT NULL, magazine_id INTEGER NOT NULL)`. -/
structure ArticleRow where
  id : Nat
  title : String
  content : Option String
  author_id : Nat
  magazine_id : Nat
deriving Repr, DecidableEq

/-- The SQLite database file `magazine.db` after `create_tables()`: three tables. -/
structure DB where
  authors : List AuthorRow
  magazines : List MagazineRow
  articles : List ArticleRow
deriving Repr, DecidableEq

/-- SQLite rowid assignment for `INTEGER PRIMARY KEY`: one more than the
largest existing id (`lastrowid` of the insert). -/
def nextId (ids : List Nat) : Nat :=
  ids.foldr max 0 + 1

/-- Python `str.isspace` on the ASCII whitespace characters. -/
def pySpace (c : Char) : Bool :=
  c == ' ' || c == '\t' || c == '\n' || c == '\r' || c == '\x0b' || c == '\x0c'

/-- Python `str.strip()`: remove whitespace from both ends. -/
def pyStrip (s : String) : String :=
  ⟨((s.data.dropWhile pySpace).reverse.dropWhile pySpace).reverse⟩

/-- Python truthiness on a string (`not s` is true exactly on `""`):
`not s.strip()` is the emptiness test used by every validator. -/
def pyBlank (s : String) : Bool :=
  pyStrip s == ""

/-- The `Author` entity (`src/lib/author.py`): `id` is `None` until persisted,
`_name` is the validated, stripped name. -/
structure Author where
  id : Option Nat
  name : String
deriving Repr, DecidableEq

/-- The `Magazine` entity (`src/lib/magazine.py`). -/
structure Magazine where
  id : Option Nat
  name : String
  category : Option String
deriving Repr, DecidableEq

/-- The `Article` entity (`src/lib/article.py`): holds object references to
its `Author` and `Magazine`, as the Python dataclass does. -/
structure Article where
  id : Option Nat
  title : String
  author : Author
  magazine : Magazine
  content : Option String
deriving Repr, DecidableEq

/-- `Author.__init__` (author.py lines 19-23): rejects empty/whitespace-only
names with `ValueError`, stores `name.strip()`.  Pure: touches no store. -/
def Author.make (name : String) (id : Option Nat) : Except Err Author :=
  if pyBlank name then
    .error (.validation "Author.name must be a non-empty string")
  else
    .ok ⟨id, pyStrip name⟩

/-- `Magazine.name` setter (magazine.py lines 30-34). -/
def Magazine.setName (m : Magazine) (value : String) : Except Err Magazine :=
  if pyBlank value then
    .error (.validation "Magazine.name must be a non-empty string")
  else
    .ok { m with name := pyStrip value }

/-- `Magazine.category` setter (magazine.py lines 41-48): `None` allowed,
otherwise a non-empty string, stored stripped. -/
def Magazine.setCategory (m : Magazine) (value : Option String) : Except Err Magazine :=
  match value with
  | none => .ok { m with category := none }
  | some v =>
    if pyBlank v then
      .error (.validation "Magazine.category must be None or a non-empty string")
    else
      .ok { m with category := some (pyStrip v) }

/-- `Magazine.__init__` (magazine.py lines 19-23): validates through the two
property setters, then assigns `id`.  Pure: touches no store. -/
def Magazine.make (name : String) (category : Option String) (id : Option Nat) :
    Except Err Magazine :=
  match Magazine.setName ⟨none, "", none⟩ name with
  | .error e => .error e
  | .ok m =>
    match Magazine.setCategory m category with
    | .error e => .error e
    | .ok m => .ok { m with id := id }

/-- `Article.__init__` (article.py lines 21-36): validates the title, then the
author and magazine references through the property setters (a `None`
reference raises `ValueError`), then assigns content and id.  Pure. -/
def Article.make (title : String) (author : Option Author) (magazine : Option Magazine)
    (content : Option String) (id : Option Nat) : Except Err Article :=
  if pyBlank title then
    .error (.validation "Article.title must be a non-empty string")
  else
    match author with
    | none => .error (.validation "Article.author must be an Author instance")
    | some au =>
      match magazine with
      | none => .error (.validation "Article.magazine must be a Magazine instance")
      | some mg => .ok ⟨id, pyStrip title, au, mg, content⟩

/-- `Author.new_from_db` (author.py lines 31-40): `None` row gives `None`,
otherwise the row's fields are handed to the validating constructor. -/
def Author.new_from_db (row : Option (Nat × String)) : Except Err (Option Author) :=
  match row with
  | none => .ok none
  | some (id_, name) => (Author.make name (some id_)).map some

/-- `Magazine.new_from_db` (magazine.py lines 51-59). -/
def Magazine.new_from_db (row : Option (Nat × String × Option String)) :
    Except Err (Option Magazine) :=
  match row with
  | none => .ok none
  | some (id_, name, category) => (Magazine.make name category (some id_)).map some

/-- `SELECT id, name FROM authors WHERE id = ?` followed by `fetchone`. -/
def DB.selectAuthor (db : DB) (i : Nat) : Option (Nat × String) :=
  (db.authors.find? (fun r => r.id == i)).map (fun r => (r.id, r.name))

/-- `SELECT id, name, category FROM magazines WHERE id = ?` followed by `fetchone`. -/
def DB.selectMagazine (db : DB) (i : Nat) : Option (Nat × String × Option String) :=
  (db.magazines.find? (fun r => r.id == i)).map (fun r => (r.id, r.name, r.category))

/-- `SELECT id, title, content, author_id, magazine_id FROM articles WHERE id = ?`. -/
def DB.selectArticle (db : DB) (i : Nat) :
    Option (Nat × String × Option String × Nat × Nat) :=
  (db.articles.find? (fun r => r.id == i)).map
    (fun r => (r.id, r.title, r.content, r.author_id, r.magazine_id))

/-- `Author.find_by_id` (author.py lines 42-46): point lookup, row hydrated by
`new_from_db`; a missing row is the normal value `none`, not an error. -/
def Author.find_by_id (db : DB) (i : Nat) : Except Err (Option Author) :=
  Author.new_from_db (db.selectAuthor i)

/-- `Magazine.find_by_id` (magazine.py lines 61-65). -/
def Magazine.find_by_id (db : DB) (i : Nat) : Except Err (Option Magazine) :=
  Magazine.new_from_db (db.selectMagazine i)

/-- `INSERT INTO authors(name) VALUES (?)`: enforces the UNIQUE constraint on
`name`, assigns the next rowid, returns it as `lastrowid`. -/
def DB.insertAuthor (db : DB) (name : String) : Except Err (DB × Nat) :=
  if db.authors.any (fun r => r.name == name) then
    .error (.storage "UNIQUE constraint failed: authors.name")
  else
    let i := nextId (db.authors.map (fun r => r.id))
    .ok ({ db with authors := db.authors ++ [⟨i, name⟩] }, i)

/-- `UPDATE authors SET name = ? WHERE id = ?`: updates every matching row
(zero rows matched is not an error), enforcing UNIQUE against other rows. -/
def DB.updateAuthor (db : DB) (name : String) (i : Nat) : Except Err DB :=
  if db.authors.any (fun r => r.name == name && r.id != i) then
    .error (.storage "UNIQUE constraint failed: authors.name")
  else
    .ok { db with authors := db.authors.map (fun r => if r.id == i then ⟨i, name⟩ else r) }

/-- `Author.save` (author.py lines 49-58): insert when unidentified (adopting
`lastrowid`), update otherwise; returns the entity itself. -/
def Author.save (db : DB) (a : Author) : Except Err (DB × Author) :=
  match a.id with
  | none =>
    match db.insertAuthor a.name with
    | .error e => .error e
    | .ok (db', i) => .ok (db', { a with id := some i })
  | some i =>
    match db.updateAuthor a.name i with
    | .error e => .error e
    | .ok db' => .ok (db', a)

/-- `INSERT INTO magazines(name, category) VALUES (?, ?)`. -/
def DB.insertMagazine (db : DB) (name : String) (category : Option String) :
    Except Err (DB × Nat) :=
  if db.magazines.any (fun r => r.name == name) then
    .error (.storage "UNIQUE constraint failed: magazines.name")
  else
    let i := nextId (db.magazines.map (fun r => r.id))
    .ok ({ db with magazines := db.magazines ++ [⟨i, name, category⟩] }, i)

/-- `UPDATE magazines SET name = ?, category = ? WHERE id = ?`. -/
def DB.updateMagazine (db : DB) (name : String) (category : Option String) (i : Nat) :
    Except Err DB :=
  if db.magazines.any (fun r => r.name == name && r.id != i) then
    .error (.storage "UNIQUE constraint failed: magazines.name")
  else
    .ok { db with magazines :=
          db.magazines.map (fun r => if r.id == i then ⟨i, name, category⟩ else r) }

/-- `Magazine.save` (magazine.py lines 67-82). -/
def Magazine.save (db : DB) (m : Magazine) : Except Err (DB × Magazine) :=
  match m.id with
  | none =>
    match db.insertMagazine m.name m.category with
    | .error e => .error e
    | .ok (db', i) => .ok (db', { m with id := some i })
  | some i =>
    match db.updateMagazine m.name m.category i with
    | .error e => .error e
    | .ok db' => .ok (db', m)

/-- Sequential fallible map, as a Python list comprehension over a
row-hydrating call behaves: the first raised exception propagates. -/
def exceptMap (f : α → Except Err β) : List α → Except Err (List β)
  | [] => .ok []
  | x :: xs =>
    match f x with
    | .error e => .error e
    | .ok y =>
      match exceptMap f xs with
      | .error e => .error e
      | .ok ys => .ok (y :: ys)

/-- `Article.new_from_db` (article.py lines 68-83): destructures the row, then
hydrates the related `Author` and `Magazine` by their stored foreign-key ids
(two point lookups), and finally builds the article through the validating
constructor — a `None` lookup result makes the constructor raise. -/
def Article.new_from_db (db : DB) (row : Option (Nat × String × Option String × Nat × Nat)) :
    Except Err (Option Article) :=
  match row with
  | none => .ok none
  | some (id_, title, content, author_id, magazine_id) =>
    match Author.find_by_id db author_id with
    | .error e => .error e
    | .ok author =>
      match Magazine.find_by_id db magazine_id with
      | .error e => .error e
      | .ok magazine =>
        match Article.make title author magazine content (some id_) with
        | .error e => .error e
        | .ok a => .ok (some a)

/-- `Article.find_by_id` (article.py lines 85-92). -/
def Article.find_by_id (db : DB) (i : Nat) : Except Err (Option Article) :=
  Article.new_from_db db (db.selectArticle i)

/-- `INSERT INTO articles(title, content, author_id, magazine_id)` on a
connection with foreign-key enforcement `fkOn`.  SQLite checks the two
`REFERENCES` clauses only when the pragma is on; the `NOT NULL` columns
reject a `None` id unconditionally. -/
def DB.insertArticle (fkOn : Bool) (db : DB) (title : String) (content : Option String)
    (author_id magazine_id : Option Nat) : Except Err (DB × Nat) :=
  match author_id, magazine_id with
  | some aid, some mid =>
    if fkOn && !(db.authors.any (fun r => r.id == aid)) then
      .error (.storage "FOREIGN KEY constraint failed")
    else if fkOn && !(db.magazines.any (fun r => r.id == mid)) then
      .error (.storage "FOREIGN KEY constraint failed")
    else
      let i := nextId (db.articles.map (fun r => r.id))
      .ok ({ db with articles := db.articles ++ [⟨i, title, content, aid, mid⟩] }, i)
  | _, _ => .error (.storage "NOT NULL constraint failed")

/-- `UPDATE articles SET title = ?, content = ?, author_id = ?, magazine_id = ? WHERE id = ?`. -/
def DB.updateArticle (fkOn : Bool) (db : DB) (title : String) (content : Option String)
    (author_id magazine_id : Option Nat) (i : Nat) : Except Err DB :=
  match author_id, magazine_id with
  | some aid, some mid =>
    if fkOn && !(db.authors.any (fun r => r.id == aid)) then
      .error (.storage "FOREIGN KEY constraint failed")
    else if fkOn && !(db.magazines.any (fun r => r.id == mid)) then
      .error (.storage "FOREIGN KEY constraint failed")
    else
      .ok { db with articles :=
            db.articles.map (fun r => if r.id == i then ⟨i, title, content, aid, mid⟩ else r) }
  | _, _ => .error (.storage "NOT NULL constraint failed")

/-- `if self.author.id is None: self.author.save()` (article.py lines 96-97):
the depth-one cascade step for the author reference. -/
def ensureAuthor (db : DB) (a : Author) : Except Err (DB × Author) :=
  match a.id with
  | none => Author.save db a
  | some _ => .ok (db, a)

/-- `if self.magazine.id is None: self.magazine.save()` (article.py lines 98-99). -/
def ensureMagazine (db : DB) (m : Magazine) : Except Err (DB × Magazine) :=
  match m.id with
  | none => Magazine.save db m
  | some _ => .ok (db, m)

/-- `Article.save` (article.py lines 94-114): depth-one cascade — an
unidentified author or magazine is saved first — then insert or update of the
article row.  `get_connection` (database_utils.py lines 16-26) never enables
`PRAGMA foreign_keys`, so the row is written with enforcement off. -/
def Article.save (db : DB) (art : Article) : Except Err (DB × Article) :=
  match ensureAuthor db art.author with
  | .error e => .error e
  | .ok (db1, au) =>
    match ensureMagazine db1 art.magazine with
    | .error e => .error e
    | .ok (db2, mg) =>
      match art.id with
      | none =>
        match db2.insertArticle false art.title art.content au.id mg.id with
        | .error e => .error e
        | .ok (db3, i) => .ok (db3, { art with author := au, magazine := mg, id := some i })
      | some i =>
        match db2.updateArticle false art.title art.content au.id mg.id i with
        | .error e => .error e
        | .ok db3 => .ok (db3, { art with author := au, magazine := mg })

/-- `Author.magazines` (author.py lines 72-86): `SELECT DISTINCT m.id, m.name,
m.category FROM magazines m JOIN articles a ON a.magazine_id = m.id WHERE
a.author_id = ?`, rows hydrated through `Magazine.new_from_db`; empty when
the author is unidentified. -/
def Author.magazines (db : DB) (a : Author) : Except Err (List Magazine) :=
  match a.id with
  | none => .ok []
  | some i =>
    let rows :=
      ((db.magazines.filter
          (fun m => db.articles.any (fun ar => ar.magazine_id == m.id && ar.author_id == i))).map
        (fun m => (m.id, m.name, m.category))).dedup
    -- each fetched row is non-`None`, so `Magazine.new_from_db` is exactly
    -- the validating constructor applied to the row's fields
    exceptMap (fun r => Magazine.make r.2.1 r.2.2 (some r.1)) rows

/-- `Author.topic_areas` (author.py lines 94-97):
`sorted({m.category for m in self.magazines() if getattr(m, "category", None)})` —
a set comprehension keeping only truthy categories (neither `None` nor the
empty string), then Python `sorted`. -/
def Author.topic_areas (db : DB) (a : Author) : Except Err (List String) :=
  match Author.magazines db a with
  | .error e => .error e
  | .ok mags =>
    let categories :=
      (mags.filterMap (fun m =>
        match m.category with
        | some c => if c == "" then none else some c
        | none => none)).dedup
    .ok (List.insertionSort (· ≤ ·) categories)

/-- `Magazine.contributing_authors` (magazine.py lines 123-138):
`SELECT author_id FROM articles WHERE magazine_id = ? GROUP BY author_id
HAVING COUNT(id) > 2` — one group per distinct author id among the magazine's
articles, kept when its row count exceeds 2. -/
def Magazine.contributing_authors (db : DB) (magazine_id : Nat) : List Nat :=
  let relevant := db.articles.filter (fun r => r.magazine_id == magazine_id)
  let groups := (relevant.map (fun r => r.author_id)).dedup
  groups.filter (fun a => (relevant.filter (fun r => r.author_id == a)).length > 2)

/-- One `GROUP BY magazine_id` result row: the group key and `COUNT(id)`. -/
def articleCounts (db : DB) : List (Nat × Nat) :=
  ((db.articles.map (fun r => r.magazine_id)).dedup).map
    (fun m => (m, (db.articles.filter (fun r => r.magazine_id == m)).length))

/-- `ORDER BY c DESC LIMIT 1` then `fetchone`: some row of maximal count
(which row is taken on ties is implementation-defined in the source). -/
def maxCountRow : Option (Nat × Nat) → List (Nat × Nat) → Option (Nat × Nat)
  | acc, [] => acc
  | none, p :: l => maxCountRow (some p) l
  | some q, p :: l => maxCountRow (some (if p.2 > q.2 then p else q)) l

/-- `Magazine.top_publisher` (magazine.py lines 140-155): the magazine id of
the single row of the descending-count-ordered grouped query, `none` when the
query yields no row. -/
def Magazine.top_publisher (db : DB) : Option Nat :=
  (maxCountRow none (articleCounts db)).map (fun p => p.1)

/-- Validity of a stored category value: absent, or stripped and non-empty —
what the `Magazine.category` setter guarantees for every persisted value. -/
def CatValid : Option String → Prop
  | none => True
  | some s => pyStrip s = s ∧ s ≠ ""

instance : (c : Option String) → Decidable (CatValid c)
  | none => inferInstanceAs (Decidable True)
  | some _ => inferInstanceAs (Decidable (_ ∧ _))

/-! ## General lemmas about the storage model -/

theorem le_foldr_max (l : List Nat) (x : Nat) (hx : x ∈ l) : x ≤ l.foldr max 0 := by
  induction l with
  | nil => cases hx
  | cons a l ih =>
    rcases List.mem_cons.mp hx with rfl | h
    · exact le_max_left _ _
    · exact le_trans (ih h) (le_max_right _ _)

theorem lt_nextId (l : List Nat) (x : Nat) (hx : x ∈ l) : x < nextId l :=
  Nat.lt_succ_of_le (le_foldr_max l x hx)

theorem find?_append_singleton {α : Type _} (p : α → Bool) (l : List α) (w : α)
    (hl : ∀ r ∈ l, p r = false) (hw : p w = true) :
    (l ++ [w]).find? p = some w := by
  induction l with
  | nil => simp [List.find?, hw]
  | cons a l ih =>
    have ha := hl a (List.mem_cons_self a l)
    simp only [List.cons_append, List.find?, ha]
    exact ih (fun r hr => hl r (List.mem_cons_of_mem a hr))

theorem find?_map_ite {α : Type _} (p : α → Bool) (w : α) (l : List α)
    (hany : l.any p = true) (hw : p w = true) :
    (l.map (fun r => if p r then w else r)).find? p = some w := by
  induction l with
  | nil => simp at hany
  | cons a l ih =>
    by_cases hpa : p a = true
    · simp [List.find?, hpa, hw]
    · have hpa' : p a = false := by simpa using hpa
      simp only [List.any_cons, hpa', Bool.false_or] at hany
      rw [List.map_cons, if_neg hpa, List.find?_cons_of_neg _ hpa]
      exact ih hany

theorem map_of_update {α β : Type _} (f : α → β) (p : α → Bool) (w : α) (l : List α)
    (hw : ∀ r ∈ l, p r = true → f w = f r) :
    (l.map (fun r => if p r then w else r)).map f = l.map f := by
  induction l with
  | nil => rfl
  | cons a l ih =>
    by_cases hpa : p a = true
    · simp only [List.map_cons, hpa, if_true, hw a (List.mem_cons_self a l) hpa]
      exact congrArg _ (ih fun r hr h => hw r (List.mem_cons_of_mem a hr) h)
    · have hpa' : p a = false := by simpa using hpa
      simp only [List.map_cons, hpa', Bool.false_eq_true, if_false]
      exact congrArg _ (ih fun r hr h => hw r (List.mem_cons_of_mem a hr) h)

/-! ## Lemmas about save -/

theorem author_save_tables (db : DB) (a : Author) (db' : DB) (a' : Author)
    (h : Author.save db a = .ok (db', a')) :
    db'.magazines = db.magazines ∧ db'.articles = db.articles := by
  cases ha : a.id with
  | none =>
    cases hcond : db.authors.any (fun r => r.name == a.name) with
    | true => simp [Author.save, ha, DB.insertAuthor, hcond] at h
    | false =>
      simp only [Author.save, ha, DB.insertAuthor, hcond, Bool.false_eq_true, if_false,
        Except.ok.injEq, Prod.mk.injEq] at h
      obtain ⟨h1, h2⟩ := h
      subst h1
      exact ⟨rfl, rfl⟩
  | some i =>
    cases hcond : db.authors.any (fun r => r.name == a.name && r.id != i) with
    | true => simp [Author.save, ha, DB.updateAuthor, hcond] at h
    | false =>
      simp only [Author.save, ha, DB.updateAuthor, hcond, Bool.false_eq_true, if_false,
        Except.ok.injEq, Prod.mk.injEq] at h
      obtain ⟨h1, h2⟩ := h
      subst h1
      exact ⟨rfl, rfl⟩

theorem magazine_save_tables (db : DB) (m : Magazine) (db' : DB) (m' : Magazine)
    (h : Magazine.save db m = .ok (db', m')) :
    db'.authors = db.authors ∧ db'.articles = db.articles := by
  cases hm : m.id with
  | none =>
    cases hcond : db.magazines.any (fun r => r.name == m.name) with
    | true => simp [Magazine.save, hm, DB.insertMagazine, hcond] at h
    | false =>
      simp only [Magazine.save, hm, DB.insertMagazine, hcond, Bool.false_eq_true, if_false,
        Except.ok.injEq, Prod.mk.injEq] at h
      obtain ⟨h1, h2⟩ := h
      subst h1
      exact ⟨rfl, rfl⟩
  | some i =>
    cases hcond : db.magazines.any (fun r => r.name == m.name && r.id != i) with
    | true => simp [Magazine.save, hm, DB.updateMagazine, hcond] at h
    | false =>
      simp only [Magazine.save, hm, DB.updateMagazine, hcond, Bool.false_eq_true, if_false,
        Except.ok.injEq, Prod.mk.injEq] at h
      obtain ⟨h1, h2⟩ := h
      subst h1
      exact ⟨rfl, rfl⟩

theorem author_save_identified (db : DB) (a : Author) (i : Nat) (h : a.id = some i)
    (db1 : DB) (a1 : Author) (hs : Author.save db a = .ok (db1, a1)) :
    a1 = a ∧ db1.authors.map (fun r => r.id) = db.authors.map (fun r => r.id) := by
  cases hcond : db.authors.any (fun r => r.name == a.name && r.id != i) with
  | true => simp [Author.save, h, DB.updateAuthor, hcond] at hs
  | false =>
    simp only [Author.save, h, DB.updateAuthor, hcond, Bool.false_eq_true, if_false,
      Except.ok.injEq, Prod.mk.injEq] at hs
    obtain ⟨h1, h2⟩ := hs
    subst h1
    refine ⟨h2.symm, ?_⟩
    apply map_of_update
    intro r _ hr
    exact (eq_of_beq hr).symm

theorem magazine_save_identified (db : DB) (m : Magazine) (i : Nat) (h : m.id = some i)
    (db1 : DB) (m1 : Magazine) (hs : Magazine.save db m = .ok (db1, m1)) :
    m1 = m ∧ db1.magazines.map (fun r => r.id) = db.magazines.map (fun r => r.id) := by
  cases hcond : db.magazines.any (fun r => r.name == m.name && r.id != i) with
  | true => simp [Magazine.save, h, DB.updateMagazine, hcond] at hs
  | false =>
    simp only [Magazine.save, h, DB.updateMagazine, hcond, Bool.false_eq_true, if_false,
      Except.ok.injEq, Prod.mk.injEq] at hs
    obtain ⟨h1, h2⟩ := hs
    subst h1
    refine ⟨h2.symm, ?_⟩
    apply map_of_update
    intro r _ hr
    exact (eq_of_beq hr).symm

theorem author_save_ok_id (db : DB) (a : Author) (db' : DB) (a' : Author)
    (h : Author.save db a = .ok (db', a')) : ∃ j, a'.id = some j := by
  cases ha : a.id with
  | none =>
    cases hcond : db.authors.any (fun r => r.name == a.name) with
    | true => simp [Author.save, ha, DB.insertAuthor, hcond] at h
    | false =>
      simp only [Author.save, ha, DB.insertAuthor, hcond, Bool.false_eq_true, if_false,
        Except.ok.injEq, Prod.mk.injEq] at h
      exact ⟨_, by rw [← h.2]⟩
  | some i =>
    cases hcond : db.authors.any (fun r => r.name == a.name && r.id != i) with
    | true => simp [Author.save, ha, DB.updateAuthor, hcond] at h
    | false =>
      simp only [Author.save, ha, DB.updateAuthor, hcond, Bool.false_eq_true, if_false,
        Except.ok.injEq, Prod.mk.injEq] at h
      exact ⟨i, by rw [← h.2, ha]⟩

theorem magazine_save_ok_id (db : DB) (m : Magazine) (db' : DB) (m' : Magazine)
    (h : Magazine.save db m = .ok (db', m')) : ∃ j, m'.id = some j := by
  cases hm : m.id with
  | none =>
    cases hcond : db.magazines.any (fun r => r.name == m.name) with
    | true => simp [Magazine.save, hm, DB.insertMagazine, hcond] at h
    | false =>
      simp only [Magazine.save, hm, DB.insertMagazine, hcond, Bool.false_eq_true, if_false,
        Except.ok.injEq, Prod.mk.injEq] at h
      exact ⟨_, by rw [← h.2]⟩
  | some i =>
    cases hcond : db.magazines.any (fun r => r.name == m.name && r.id != i) with
    | true => simp [Magazine.save, hm, DB.updateMagazine, hcond] at h
    | false =>
      simp only [Magazine.save, hm, DB.updateMagazine, hcond, Bool.false_eq_true, if_false,
        Except.ok.injEq, Prod.mk.injEq] at h
      exact ⟨i, by rw [← h.2, hm]⟩

theorem ensureAuthor_ok (db : DB) (a : Author) (dba : DB) (au : Author)
    (hA : ensureAuthor db a = .ok (dba, au)) :
    (∃ j, au.id = some j) ∧ dba.magazines = db.magazines ∧ dba.articles = db.articles := by
  cases hai : a.id with
  | none =>
    simp only [ensureAuthor, hai] at hA
    exact ⟨author_save_ok_id db a dba au hA, (author_save_tables db a dba au hA).1,
      (author_save_tables db a dba au hA).2⟩
  | some j =>
    simp only [ensureAuthor, hai, Except.ok.injEq, Prod.mk.injEq] at hA
    obtain ⟨h1, h2⟩ := hA
    subst h1
    exact ⟨⟨j, by rw [← h2, hai]⟩, rfl, rfl⟩

theorem ensureMagazine_ok (db : DB) (m : Magazine) (dbm : DB) (mg : Magazine)
    (hM : ensureMagazine db m = .ok (dbm, mg)) :
    (∃ j, mg.id = some j) ∧ dbm.authors = db.authors ∧ dbm.articles = db.articles := by
  cases hmi : m.id with
  | none =>
    simp only [ensureMagazine, hmi] at hM
    exact ⟨magazine_save_ok_id db m dbm mg hM, (magazine_save_tables db m dbm mg hM).1,
      (magazine_save_tables db m dbm mg hM).2⟩
  | some j =>
    simp only [ensureMagazine, hmi, Except.ok.injEq, Prod.mk.injEq] at hM
    obtain ⟨h1, h2⟩ := hM
    subst h1
    exact ⟨⟨j, by rw [← h2, hmi]⟩, rfl, rfl⟩

theorem article_save_identified (db : DB) (art : Article) (i : Nat) (h : art.id = some i)
    (db1 : DB) (art1 : Article) (hs : Article.save db art = .ok (db1, art1)) :
    art1.id = some i ∧ db1.articles.map (fun r => r.id) = db.articles.map (fun r => r.id) := by
  cases hA : ensureAuthor db art.author with
  | error e => simp [Article.save, hA] at hs
  | ok p =>
    obtain ⟨dba, au⟩ := p
    obtain ⟨⟨aid, haid⟩, _, hba⟩ := ensureAuthor_ok db art.author dba au hA
    cases hM : ensureMagazine dba art.magazine with
    | error e => simp [Article.save, hA, hM] at hs
    | ok q =>
      obtain ⟨dbm, mg⟩ := q
      obtain ⟨⟨mid, hmid⟩, _, hmart⟩ := ensureMagazine_ok dba art.magazine dbm mg hM
      simp only [Article.save, hA, hM, h, DB.updateArticle, haid, hmid, Bool.false_and,
        Bool.false_eq_true, if_false, Except.ok.injEq, Prod.mk.injEq] at hs
      obtain ⟨h1, h2⟩ := hs
      subst h1
      refine ⟨by rw [← h2], ?_⟩
      show (dbm.articles.map _).map _ = _
      rw [hmart, hba]
      apply map_of_update
      intro r _ hr
      exact (eq_of_beq hr).symm

theorem article_save_ok_id (db : DB) (art : Article) (db1 : DB) (art1 : Article)
    (hs : Article.save db art = .ok (db1, art1)) : ∃ j, art1.id = some j := by
  cases hA : ensureAuthor db art.author with
  | error e => simp [Article.save, hA] at hs
  | ok p =>
    obtain ⟨dba, au⟩ := p
    obtain ⟨⟨aid, haid⟩, _, _⟩ := ensureAuthor_ok db art.author dba au hA
    cases hM : ensureMagazine dba art.magazine with
    | error e => simp [Article.save, hA, hM] at hs
    | ok q =>
      obtain ⟨dbm, mg⟩ := q
      obtain ⟨⟨mid, hmid⟩, _, _⟩ := ensureMagazine_ok dba art.magazine dbm mg hM
      cases hai : art.id with
      | none =>
        simp only [Article.save, hA, hM, hai, DB.insertArticle, haid, hmid, Bool.false_and,
          Bool.false_eq_true, if_false, Except.ok.injEq, Prod.mk.injEq] at hs
        exact ⟨_, by rw [← hs.2]⟩
      | some i =>
        exact ⟨i, (article_save_identified db art i hai db1 art1 hs).1⟩

/-! ## Claims -/

/-- C3: for every string `s` supplied as an entity name or title, if `s` is
non-empty after stripping, construction succeeds and the stored field equals
`s.strip()`; if `s` is empty or whitespace-only, construction fails with a
validation error (the constructors are pure functions of their arguments, so
no store access occurs either way). -/
theorem claim_c3_constructor_validation (s : String) (au : Author) (mg : Magazine) :
    (pyStrip s ≠ "" →
      Author.make s none = .ok ⟨none, pyStrip s⟩ ∧
      Magazine.make s none none = .ok ⟨none, pyStrip s, none⟩ ∧
      Article.make s (some au) (some mg) none none = .ok ⟨none, pyStrip s, au, mg, none⟩) ∧
    (pyStrip s = "" →
      Author.make s none = .error (.validation "Author.name must be a non-empty string") ∧
      Magazine.make s none none = .error (.validation "Magazine.name must be a non-empty string") ∧
      Article.make s (some au) (some mg) none none =
        .error (.validation "Article.title must be a non-empty string")) := by
  constructor
  · intro h
    have hb : pyBlank s = false := by simp [pyBlank, h]
    simp [Author.make, Magazine.make, Magazine.setName, Magazine.setCategory, Article.make, hb]
  · intro h
    have hb : pyBlank s = true := by simp [pyBlank, h]
    simp [Author.make, Magazine.make, Magazine.setName, Magazine.setCategory, Article.make, hb]

theorem claim_c3_witness :
    Author.make "  Alice " none = .ok ⟨none, "Alice"⟩ ∧
    Magazine.make "  Alice " none none = .ok ⟨none, "Alice", none⟩ ∧
    Article.make "  Alice " (some ⟨none, "A"⟩) (some ⟨none, "M", none⟩) none none =
      .ok ⟨none, "Alice", ⟨none, "A"⟩, ⟨none, "M", none⟩, none⟩ ∧
    Author.make " " none = .error (.validation "Author.name must be a non-empty string") := by
  have h1 := (claim_c3_constructor_validation "  Alice " ⟨none, "A"⟩ ⟨none, "M", none⟩).1
    (by decide)
  have h2 := (claim_c3_constructor_validation " " ⟨none, "A"⟩ ⟨none, "M", none⟩).2 (by decide)
  exact ⟨h1.1, h1.2.1, h1.2.2, h2.1⟩

/-- C1 is false as stated: `new_from_db` hands the row's fields to the
validating constructor, so it does re-validate — it strips the name taken
from the row (altering the value) and raises a validation error on a
whitespace-only name. -/
theorem claim_c1_counterexample :
    Author.new_from_db (some (1, "  Alice  ")) = .ok (some ⟨some 1, "Alice"⟩) ∧
    "Alice" ≠ "  Alice  " ∧
    Author.new_from_db (some (2, "   ")) =
      .error (.validation "Author.name must be a non-empty string") :=
  ⟨rfl, by decide, rfl⟩

/-- C1 amended: `new_from_db` maps the row through the validating
constructor; on rows whose string fields are already stripped and non-empty
(as every row written by `save` is), it never raises and never alters the
values, for Author, Magazine and Article alike — though for Article the
mapping is not pure: it performs two point lookups to hydrate the
referenced author and magazine. -/
theorem claim_c1_from_db_amended :
    (∀ i n, pyStrip n = n → n ≠ "" →
      Author.new_from_db (some (i, n)) = .ok (some ⟨some i, n⟩)) ∧
    (∀ i n c, pyStrip n = n → n ≠ "" → CatValid c →
      Magazine.new_from_db (some (i, n, c)) = .ok (some ⟨some i, n, c⟩)) ∧
    (∀ db i t ct aid mid au mg, pyStrip t = t → t ≠ "" →
      Author.find_by_id db aid = .ok (some au) →
      Magazine.find_by_id db mid = .ok (some mg) →
      Article.new_from_db db (some (i, t, ct, aid, mid)) =
        .ok (some ⟨some i, t, au, mg, ct⟩)) := by
  refine ⟨?_, ?_, ?_⟩
  · intro i n hs hn
    have hb : pyBlank n = false := by simp [pyBlank, hs, hn]
    simp [Author.new_from_db, Author.make, Except.map, hb, hs]
  · intro i n c hs hn hc
    have hb : pyBlank n = false := by simp [pyBlank, hs, hn]
    cases c with
    | none =>
      simp [Magazine.new_from_db, Magazine.make, Magazine.setName, Magazine.setCategory,
        Except.map, hb, hs]
    | some v =>
      obtain ⟨hv, hv'⟩ := hc
      have hbv : pyBlank v = false := by simp [pyBlank, hv, hv']
      simp [Magazine.new_from_db, Magazine.make, Magazine.setName, Magazine.setCategory,
        Except.map, hb, hs, hbv, hv]
  · intro db i t ct aid mid au mg hs hn hau hmg
    have hb : pyBlank t = false := by simp [pyBlank, hs, hn]
    simp [Article.new_from_db, hau, hmg, Article.make, hb, hs]

theorem claim_c1_witness :
    Author.new_from_db (some (1, "Alice")) = .ok (some ⟨some 1, "Alice"⟩) ∧
    Magazine.new_from_db (some (2, "Tech", some "Technology")) =
      .ok (some ⟨some 2, "Tech", some "Technology"⟩) ∧
    Article.new_from_db ⟨[⟨1, "Alice"⟩], [⟨2, "Tech", some "Technology"⟩], []⟩
        (some (3, "AI", none, 1, 2)) =
      .ok (some ⟨some 3, "AI", ⟨some 1, "Alice"⟩, ⟨some 2, "Tech", some "Technology"⟩, none⟩) :=
  ⟨claim_c1_from_db_amended.1 1 "Alice" (by decide) (by decide),
   claim_c1_from_db_amended.2.1 2 "Tech" (some "Technology") (by decide) (by decide) (by decide),
   claim_c1_from_db_amended.2.2 ⟨[⟨1, "Alice"⟩], [⟨2, "Tech", some "Technology"⟩], []⟩
     3 "AI" none 1 2 ⟨some 1, "Alice"⟩ ⟨some 2, "Tech", some "Technology"⟩
     (by decide) (by decide) rfl rfl⟩

/-- C5: inserting an article whose `author_id` references no authors row
fails with a foreign-key storage error only on a connection where
enforcement was explicitly enabled; `Article.save` uses `get_connection`
without the pragma, so the same insert silently succeeds and the dangling
row is stored. -/
theorem claim_c5_foreign_keys (db : DB) (art : Article) (aid mid : Nat)
    (ha : art.author.id = some aid) (hm : art.magazine.id = some mid)
    (hdangling : db.authors.any (fun r => r.id == aid) = false)
    (hnew : art.id = none) :
    (∀ t c, DB.insertArticle true db t c (some aid) (some mid) =
      .error (.storage "FOREIGN KEY constraint failed")) ∧
    (∃ db', Article.save db art =
        .ok (db', { art with id := some (nextId (db.articles.map (fun r => r.id))) }) ∧
      db'.articles = db.articles ++
        [⟨nextId (db.articles.map (fun r => r.id)), art.title, art.content, aid, mid⟩]) := by
  constructor
  · intro t c
    simp [DB.insertArticle, hdangling]
  · refine ⟨{ db with articles := db.articles ++
      [⟨nextId (db.articles.map (fun r => r.id)), art.title, art.content, aid, mid⟩] }, ?_, rfl⟩
    simp [Article.save, ensureAuthor, ensureMagazine, ha, hm, hnew, DB.insertArticle]

theorem claim_c5_witness :
    DB.insertArticle true ⟨[], [⟨1, "M", none⟩], []⟩ "T" none (some 5) (some 1) =
      .error (.storage "FOREIGN KEY constraint failed") ∧
    ∃ db', Article.save ⟨[], [⟨1, "M", none⟩], []⟩
        ⟨none, "T", ⟨some 5, "A"⟩, ⟨some 1, "M", none⟩, none⟩ =
        .ok (db', ⟨some 1, "T", ⟨some 5, "A"⟩, ⟨some 1, "M", none⟩, none⟩) ∧
      db'.articles = [⟨1, "T", none, 5, 1⟩] := by
  have h := claim_c5_foreign_keys ⟨[], [⟨1, "M", none⟩], []⟩
    ⟨none, "T", ⟨some 5, "A"⟩, ⟨some 1, "M", none⟩, none⟩ 5 1 rfl rfl rfl rfl
  exact ⟨h.1 "T" none, h.2⟩

/-- C6: reading back a stored article row whose `author_id` (or, author
resolving, whose `magazine_id`) matches no row makes `Article.find_by_id`
raise a validation error — the related lookup hydrates to `None` and the
reference setter inside the constructor rejects it — rather than returning
the article or a not-found result. -/
theorem claim_c6_dangling_read (db : DB) (i j : Nat) (t : String) (ct : Option String)
    (aid mid : Nat) (hrow : db.selectArticle i = some (j, t, ct, aid, mid))
    (ht : pyBlank t = false) :
    (∀ om, Author.find_by_id db aid = .ok none →
      Magazine.find_by_id db mid = .ok om →
      Article.find_by_id db i =
        .error (.validation "Article.author must be an Author instance")) ∧
    (∀ au, Author.find_by_id db aid = .ok (some au) →
      Magazine.find_by_id db mid = .ok none →
      Article.find_by_id db i =
        .error (.validation "Article.magazine must be a Magazine instance")) := by
  constructor
  · intro om hA hM
    simp [Article.find_by_id, Article.new_from_db, hrow, hA, hM, Article.make, ht]
  · intro au hA hM
    simp [Article.find_by_id, Article.new_from_db, hrow, hA, hM, Article.make, ht]

theorem claim_c6_witness :
    Article.find_by_id ⟨[], [], [⟨1, "T", none, 9, 9⟩]⟩ 1 =
      .error (.validation "Article.author must be an Author instance") ∧
    Article.find_by_id ⟨[⟨9, "A"⟩], [], [⟨1, "T", none, 9, 9⟩]⟩ 1 =
      .error (.validation "Article.magazine must be a Magazine instance") :=
  ⟨(claim_c6_dangling_read ⟨[], [], [⟨1, "T", none, 9, 9⟩]⟩ 1 1 "T" none 9 9 rfl rfl).1
     none rfl rfl,
   (claim_c6_dangling_read ⟨[⟨9, "A"⟩], [], [⟨1, "T", none, 9, 9⟩]⟩ 1 1 "T" none 9 9
     rfl rfl).2 ⟨some 9, "A"⟩ rfl rfl⟩

/-- C4: saving an entity that already has an identifier performs an update —
the table's id column is untouched, so no second row is ever created — and
the entity's identifier is unchanged, across a second save as well; an
identifier handed out by the store on first insert is some fixed value that
subsequent saves (by the update parts above) never change. -/
theorem claim_c4_identifier_stability :
    (∀ db (a : Author) i, a.id = some i →
      ∀ db1 a1, Author.save db a = .ok (db1, a1) →
        a1.id = some i ∧
        db1.authors.map (fun r => r.id) = db.authors.map (fun r => r.id) ∧
        ∀ db2 a2, Author.save db1 a1 = .ok (db2, a2) →
          a2.id = some i ∧
          db2.authors.map (fun r => r.id) = db.authors.map (fun r => r.id)) ∧
    (∀ db (m : Magazine) i, m.id = some i →
      ∀ db1 m1, Magazine.save db m = .ok (db1, m1) →
        m1.id = some i ∧
        db1.magazines.map (fun r => r.id) = db.magazines.map (fun r => r.id) ∧
        ∀ db2 m2, Magazine.save db1 m1 = .ok (db2, m2) →
          m2.id = some i ∧
          db2.magazines.map (fun r => r.id) = db.magazines.map (fun r => r.id)) ∧
    (∀ db (art : Article) i, art.id = some i →
      ∀ db1 art1, Article.save db art = .ok (db1, art1) →
        art1.id = some i ∧
        db1.articles.map (fun r => r.id) = db.articles.map (fun r => r.id) ∧
        ∀ db2 art2, Article.save db1 art1 = .ok (db2, art2) →
          art2.id = some i ∧
          db2.articles.map (fun r => r.id) = db.articles.map (fun r => r.id)) ∧
    (∀ db (a : Author), a.id = none → ∀ db1 a1, Author.save db a = .ok (db1, a1) →
      ∃ j, a1.id = some j) ∧
    (∀ db (m : Magazine), m.id = none → ∀ db1 m1, Magazine.save db m = .ok (db1, m1) →
      ∃ j, m1.id = some j) ∧
    (∀ db (art : Article), art.id = none → ∀ db1 art1, Article.save db art = .ok (db1, art1) →
      ∃ j, art1.id = some j) := by
  refine ⟨?_, ?_, ?_, ?_, ?_, ?_⟩
  · intro db a i h db1 a1 hs
    obtain ⟨he, hmap⟩ := author_save_identified db a i h db1 a1 hs
    have h1 : a1.id = some i := by rw [he, h]
    refine ⟨h1, hmap, ?_⟩
    intro db2 a2 hs2
    obtain ⟨he2, hmap2⟩ := author_save_identified db1 a1 i h1 db2 a2 hs2
    exact ⟨by rw [he2, h1], by rw [hmap2, hmap]⟩
  · intro db m i h db1 m1 hs
    obtain ⟨he, hmap⟩ := magazine_save_identified db m i h db1 m1 hs
    have h1 : m1.id = some i := by rw [he, h]
    refine ⟨h1, hmap, ?_⟩
    intro db2 m2 hs2
    obtain ⟨he2, hmap2⟩ := magazine_save_identified db1 m1 i h1 db2 m2 hs2
    exact ⟨by rw [he2, h1], by rw [hmap2, hmap]⟩
  · intro db art i h db1 art1 hs
    obtain ⟨h1, hmap⟩ := article_save_identified db art i h db1 art1 hs
    refine ⟨h1, hmap, ?_⟩
    intro db2 art2 hs2
    obtain ⟨h2, hmap2⟩ := article_save_identified db1 art1 i h1 db2 art2 hs2
    exact ⟨h2, by rw [hmap2, hmap]⟩
  · intro db a _ db1 a1 hs
    exact author_save_ok_id db a db1 a1 hs
  · intro db m _ db1 m1 hs
    exact magazine_save_ok_id db m db1 m1 hs
  · intro db art _ db1 art1 hs
    exact article_save_ok_id db art db1 art1 hs

theorem claim_c4_witness :
    (⟨some 1, "Alice"⟩ : Author).id = some 1 ∧
    Author.save ⟨[⟨1, "Alice"⟩], [], []⟩ ⟨some 1, "Alice"⟩ =
      .ok (⟨[⟨1, "Alice"⟩], [], []⟩, ⟨some 1, "Alice"⟩) ∧
    (⟨some 1, "Alice"⟩ : Author).id = some 1 ∧
    ([⟨1, "Alice"⟩] : List AuthorRow).map (fun r => r.id) = [1] := by
  have h := claim_c4_identifier_stability.1 ⟨[⟨1, "Alice"⟩], [], []⟩ ⟨some 1, "Alice"⟩ 1 rfl
    ⟨[⟨1, "Alice"⟩], [], []⟩ ⟨some 1, "Alice"⟩ rfl
  exact ⟨rfl, rfl, h.1, h.2.1⟩

/-- C7: `Article.save` cascades first, one level deep: an unidentified
author (resp. magazine) is saved before the article row is written, the
other two tables are not otherwise touched, the article row carries the
freshly assigned identifiers, and the returned value is the entity itself
(same title, content and references, with only the identifiers filled in). -/
theorem claim_c7_cascade_save :
    (∀ db (art : Article) mid, art.id = none → art.author.id = none →
      art.magazine.id = some mid →
      db.authors.any (fun r => r.name == art.author.name) = false →
      ∃ db',
        Article.save db art = .ok (db', { art with
          author := { art.author with id := some (nextId (db.authors.map (fun r => r.id))) },
          id := some (nextId (db.articles.map (fun r => r.id))) }) ∧
        db'.authors = db.authors ++
          [⟨nextId (db.authors.map (fun r => r.id)), art.author.name⟩] ∧
        db'.magazines = db.magazines ∧
        db'.articles = db.articles ++
          [⟨nextId (db.articles.map (fun r => r.id)), art.title, art.content,
            nextId (db.authors.map (fun r => r.id)), mid⟩]) ∧
    (∀ db (art : Article) aid, art.id = none → art.author.id = some aid →
      art.magazine.id = none →
      db.magazines.any (fun r => r.name == art.magazine.name) = false →
      ∃ db',
        Article.save db art = .ok (db', { art with
          magazine := { art.magazine with
            id := some (nextId (db.magazines.map (fun r => r.id))) },
          id := some (nextId (db.articles.map (fun r => r.id))) }) ∧
        db'.authors = db.authors ∧
        db'.magazines = db.magazines ++
          [⟨nextId (db.magazines.map (fun r => r.id)), art.magazine.name,
            art.magazine.category⟩] ∧
        db'.articles = db.articles ++
          [⟨nextId (db.articles.map (fun r => r.id)), art.title, art.content,
            aid, nextId (db.magazines.map (fun r => r.id))⟩]) ∧
    (∀ db (art : Article) aid mid, art.id = none → art.author.id = some aid →
      art.magazine.id = some mid →
      ∃ db',
        Article.save db art =
          .ok (db', { art with id := some (nextId (db.articles.map (fun r => r.id))) }) ∧
        db'.authors = db.authors ∧
        db'.magazines = db.magazines ∧
        db'.articles = db.articles ++
          [⟨nextId (db.articles.map (fun r => r.id)), art.title, art.content, aid, mid⟩]) := by
  refine ⟨?_, ?_, ?_⟩
  · intro db art mid hnew ha hm hfresh
    refine ⟨⟨db.authors ++ [⟨nextId (db.authors.map (fun r => r.id)), art.author.name⟩],
      db.magazines,
      db.articles ++ [⟨nextId (db.articles.map (fun r => r.id)), art.title, art.content,
        nextId (db.authors.map (fun r => r.id)), mid⟩]⟩, ?_, rfl, rfl, rfl⟩
    simp [Article.save, ensureAuthor, ensureMagazine, Author.save, DB.insertAuthor,
      hnew, ha, hm, hfresh, DB.insertArticle]
  · intro db art aid hnew ha hm hfresh
    refine ⟨⟨db.authors,
      db.magazines ++ [⟨nextId (db.magazines.map (fun r => r.id)), art.magazine.name,
        art.magazine.category⟩],
      db.articles ++ [⟨nextId (db.articles.map (fun r => r.id)), art.title, art.content,
        aid, nextId (db.magazines.map (fun r => r.id))⟩]⟩, ?_, rfl, rfl, rfl⟩
    simp [Article.save, ensureAuthor, ensureMagazine, Magazine.save, DB.insertMagazine,
      hnew, ha, hm, hfresh, DB.insertArticle]
  · intro db art aid mid hnew ha hm
    refine ⟨⟨db.authors, db.magazines,
      db.articles ++ [⟨nextId (db.articles.map (fun r => r.id)), art.title, art.content,
        aid, mid⟩]⟩, ?_, rfl, rfl, rfl⟩
    simp [Article.save, ensureAuthor, ensureMagazine, hnew, ha, hm, DB.insertArticle]

theorem claim_c7_witness :
    ∃ db',
      Article.save ⟨[], [⟨1, "M", none⟩], []⟩
          ⟨none, "T", ⟨none, "Alice"⟩, ⟨some 1, "M", none⟩, none⟩ =
        .ok (db', ⟨some 1, "T", ⟨some 1, "Alice"⟩, ⟨some 1, "M", none⟩, none⟩) ∧
      db'.authors = [⟨1, "Alice"⟩] ∧
      db'.magazines = [⟨1, "M", none⟩] ∧
      db'.articles = [⟨1, "T", none, 1, 1⟩] :=
  claim_c7_cascade_save.1 ⟨[], [⟨1, "M", none⟩], []⟩
    ⟨none, "T", ⟨none, "Alice"⟩, ⟨some 1, "M", none⟩, none⟩ 1 rfl rfl rfl rfl

/-! ## Round-trip lemmas: save then find_by_id -/

theorem beq_nextId_false {α : Type _} (f : α → Nat) (l : List α) (r : α) (hr : r ∈ l) :
    (f r == nextId (l.map f)) = false := by
  have hlt := lt_nextId (l.map f) (f r) (List.mem_map_of_mem f hr)
  simp only [beq_eq_false_iff_ne, ne_eq]
  exact Nat.ne_of_lt hlt

theorem author_insert_find (db : DB) (a : Author) (hid : a.id = none)
    (hname : pyStrip a.name = a.name) (hne : a.name ≠ "")
    (hfresh : db.authors.any (fun r => r.name == a.name) = false) :
    ∃ db' i, Author.save db a = .ok (db', { a with id := some i }) ∧
      Author.find_by_id db' i = .ok (some { a with id := some i }) := by
  cases a with
  | mk aid aname =>
    simp only at hid hname hne hfresh
    subst hid
    refine ⟨{ db with authors :=
        db.authors ++ [⟨nextId (db.authors.map (fun r => r.id)), aname⟩] },
      nextId (db.authors.map (fun r => r.id)), ?_, ?_⟩
    · simp [Author.save, DB.insertAuthor, hfresh]
    · have hfind : List.find? (fun r => r.id == nextId (db.authors.map (fun r => r.id)))
          (db.authors ++ [(⟨nextId (db.authors.map (fun r => r.id)), aname⟩ : AuthorRow)]) =
          some ⟨nextId (db.authors.map (fun r => r.id)), aname⟩ :=
        find?_append_singleton _ _ _
          (fun r hr => beq_nextId_false (fun r => r.id) db.authors r hr) (by simp)
      have hsel : DB.selectAuthor ({ db with authors :=
            db.authors ++ [⟨nextId (db.authors.map (fun r => r.id)), aname⟩] })
          (nextId (db.authors.map (fun r => r.id))) =
          some (nextId (db.authors.map (fun r => r.id)), aname) := by
        show (List.find? (fun r => r.id == nextId (db.authors.map (fun r => r.id)))
          (db.authors ++ [(⟨nextId (db.authors.map (fun r => r.id)), aname⟩ : AuthorRow)])).map
            (fun r => (r.id, r.name)) = _
        rw [hfind]
        rfl
      simp [Author.find_by_id, hsel, Author.new_from_db, Author.make,
        pyBlank, hname, hne, Except.map]

theorem author_update_find (db : DB) (a : Author) (i : Nat) (hid : a.id = some i)
    (hname : pyStrip a.name = a.name) (hne : a.name ≠ "")
    (hexists : db.authors.any (fun r => r.id == i) = true)
    (hfresh : db.authors.any (fun r => r.name == a.name && r.id != i) = false) :
    ∃ db', Author.save db a = .ok (db', a) ∧ Author.find_by_id db' i = .ok (some a) := by
  cases a with
  | mk aid aname =>
    simp only at hid hname hne hfresh
    subst hid
    refine ⟨{ db with authors :=
        db.authors.map (fun r => if r.id == i then ⟨i, aname⟩ else r) }, ?_, ?_⟩
    · simp [Author.save, DB.updateAuthor, hfresh]
    · have hfind : List.find? (fun r => r.id == i)
          (db.authors.map (fun r => if r.id == i then (⟨i, aname⟩ : AuthorRow) else r)) =
          some ⟨i, aname⟩ :=
        find?_map_ite (fun r => r.id == i) ⟨i, aname⟩ db.authors hexists (by simp)
      have hsel : DB.selectAuthor
          ⟨db.authors.map (fun r => if r.id == i then ⟨i, aname⟩ else r),
            db.magazines, db.articles⟩ i =
          some (i, aname) := by
        show (List.find? (fun r => r.id == i)
          (db.authors.map (fun r => if r.id == i then (⟨i, aname⟩ : AuthorRow) else r))).map
            (fun r => (r.id, r.name)) = _
        rw [hfind]
        rfl
      simp only [beq_iff_eq] at hsel
      simp [Author.find_by_id, hsel, Author.new_from_db, Author.make,
        pyBlank, hname, hne, Except.map]

theorem magazine_insert_find (db : DB) (m : Magazine) (hid : m.id = none)
    (hname : pyStrip m.name = m.name) (hne : m.name ≠ "") (hcat : CatValid m.category)
    (hfresh : db.magazines.any (fun r => r.name == m.name) = false) :
    ∃ db' i, Magazine.save db m = .ok (db', { m with id := some i }) ∧
      Magazine.find_by_id db' i = .ok (some { m with id := some i }) := by
  cases m with
  | mk mid0 mname mcat =>
    simp only at hid hname hne hfresh hcat
    subst hid
    refine ⟨{ db with magazines :=
        db.magazines ++ [⟨nextId (db.magazines.map (fun r => r.id)), mname, mcat⟩] },
      nextId (db.magazines.map (fun r => r.id)), ?_, ?_⟩
    · simp [Magazine.save, DB.insertMagazine, hfresh]
    · have hfind : List.find? (fun r => r.id == nextId (db.magazines.map (fun r => r.id)))
          (db.magazines ++
            [(⟨nextId (db.magazines.map (fun r => r.id)), mname, mcat⟩ : MagazineRow)]) =
          some ⟨nextId (db.magazines.map (fun r => r.id)), mname, mcat⟩ :=
        find?_append_singleton _ _ _
          (fun r hr => beq_nextId_false (fun r => r.id) db.magazines r hr) (by simp)
      have hsel : DB.selectMagazine ({ db with magazines :=
            db.magazines ++ [⟨nextId (db.magazines.map (fun r => r.id)), mname, mcat⟩] })
          (nextId (db.magazines.map (fun r => r.id))) =
          some (nextId (db.magazines.map (fun r => r.id)), mname, mcat) := by
        show (List.find? (fun r => r.id == nextId (db.magazines.map (fun r => r.id)))
          (db.magazines ++
            [(⟨nextId (db.magazines.map (fun r => r.id)), mname, mcat⟩ : MagazineRow)])).map
            (fun r => (r.id, r.name, r.category)) = _
        rw [hfind]
        rfl
      cases mcat with
      | none =>
        simp [Magazine.find_by_id, hsel, Magazine.new_from_db, Magazine.make,
          Magazine.setName, Magazine.setCategory, pyBlank, hname, hne, Except.map]
      | some c =>
        obtain ⟨hc, hc'⟩ := hcat
        simp [Magazine.find_by_id, hsel, Magazine.new_from_db, Magazine.make,
          Magazine.setName, Magazine.setCategory, pyBlank, hname, hne, hc, hc', Except.map]

theorem magazine_update_find (db : DB) (m : Magazine) (i : Nat) (hid : m.id = some i)
    (hname : pyStrip m.name = m.name) (hne : m.name ≠ "") (hcat : CatValid m.category)
    (hexists : db.magazines.any (fun r => r.id == i) = true)
    (hfresh : db.magazines.any (fun r => r.name == m.name && r.id != i) = false) :
    ∃ db', Magazine.save db m = .ok (db', m) ∧
      Magazine.find_by_id db' i = .ok (some m) := by
  cases m with
  | mk mid0 mname mcat =>
    simp only at hid hname hne hfresh hcat
    subst hid
    refine ⟨{ db with magazines :=
        db.magazines.map (fun r => if r.id == i then ⟨i, mname, mcat⟩ else r) }, ?_, ?_⟩
    · simp [Magazine.save, DB.updateMagazine, hfresh]
    · have hfind : List.find? (fun r => r.id == i)
          (db.magazines.map
            (fun r => if r.id == i then (⟨i, mname, mcat⟩ : MagazineRow) else r)) =
          some ⟨i, mname, mcat⟩ :=
        find?_map_ite (fun r => r.id == i) ⟨i, mname, mcat⟩ db.magazines hexists (by simp)
      have hsel : DB.selectMagazine
          ⟨db.authors, db.magazines.map (fun r => if r.id == i then ⟨i, mname, mcat⟩ else r),
            db.articles⟩ i =
          some (i, mname, mcat) := by
        show (List.find? (fun r => r.id == i)
          (db.magazines.map
            (fun r => if r.id == i then (⟨i, mname, mcat⟩ : MagazineRow) else r))).map
            (fun r => (r.id, r.name, r.category)) = _
        rw [hfind]
        rfl
      simp only [beq_iff_eq] at hsel
      cases mcat with
      | none =>
        simp [Magazine.find_by_id, hsel, Magazine.new_from_db, Magazine.make,
          Magazine.setName, Magazine.setCategory, pyBlank, hname, hne, Except.map]
      | some c =>
        obtain ⟨hc, hc'⟩ := hcat
        simp [Magazine.find_by_id, hsel, Magazine.new_from_db, Magazine.make,
          Magazine.setName, Magazine.setCategory, pyBlank, hname, hne, hc, hc', Except.map]

theorem article_insert_find (db : DB) (art : Article) (aid mid : Nat)
    (hid : art.id = none) (htitle : pyStrip art.title = art.title) (hne : art.title ≠ "")
    (ha : art.author.id = some aid) (hm : art.magazine.id = some mid)
    (hau : Author.find_by_id db aid = .ok (some art.author))
    (hmg : Magazine.find_by_id db mid = .ok (some art.magazine)) :
    ∃ db' i, Article.save db art = .ok (db', { art with id := some i }) ∧
      Article.find_by_id db' i = .ok (some { art with id := some i }) := by
  cases art with
  | mk id0 t au mg ct =>
    simp only at hid htitle hne ha hm hau hmg
    subst hid
    refine ⟨{ db with articles :=
        db.articles ++ [⟨nextId (db.articles.map (fun r => r.id)), t, ct, aid, mid⟩] },
      nextId (db.articles.map (fun r => r.id)), ?_, ?_⟩
    · simp [Article.save, ensureAuthor, ensureMagazine, ha, hm, DB.insertArticle]
    · have hfind : List.find? (fun r => r.id == nextId (db.articles.map (fun r => r.id)))
          (db.articles ++
            [(⟨nextId (db.articles.map (fun r => r.id)), t, ct, aid, mid⟩ : ArticleRow)]) =
          some ⟨nextId (db.articles.map (fun r => r.id)), t, ct, aid, mid⟩ :=
        find?_append_singleton _ _ _
          (fun r hr => beq_nextId_false (fun r => r.id) db.articles r hr) (by simp)
      have hsel : DB.selectArticle ({ db with articles :=
            db.articles ++ [⟨nextId (db.articles.map (fun r => r.id)), t, ct, aid, mid⟩] })
          (nextId (db.articles.map (fun r => r.id))) =
          some (nextId (db.articles.map (fun r => r.id)), t, ct, aid, mid) := by
        show (List.find? (fun r => r.id == nextId (db.articles.map (fun r => r.id)))
          (db.articles ++
            [(⟨nextId (db.articles.map (fun r => r.id)), t, ct, aid, mid⟩ : ArticleRow)])).map
            (fun r => (r.id, r.title, r.content, r.author_id, r.magazine_id)) = _
        rw [hfind]
        rfl
      have hau' : Author.find_by_id ({ db with articles :=
            db.articles ++ [⟨nextId (db.articles.map (fun r => r.id)), t, ct, aid, mid⟩] })
          aid = .ok (some au) := hau
      have hmg' : Magazine.find_by_id ({ db with articles :=
            db.articles ++ [⟨nextId (db.articles.map (fun r => r.id)), t, ct, aid, mid⟩] })
          mid = .ok (some mg) := hmg
      simp [Article.find_by_id, Article.new_from_db, hsel, hau', hmg', Article.make,
        pyBlank, htitle, hne]

theorem article_update_find (db : DB) (art : Article) (j aid mid : Nat)
    (hid : art.id = some j) (htitle : pyStrip art.title = art.title) (hne : art.title ≠ "")
    (ha : art.author.id = some aid) (hm : art.magazine.id = some mid)
    (hexists : db.articles.any (fun r => r.id == j) = true)
    (hau : Author.find_by_id db aid = .ok (some art.author))
    (hmg : Magazine.find_by_id db mid = .ok (some art.magazine)) :
    ∃ db', Article.save db art = .ok (db', art) ∧
      Article.find_by_id db' j = .ok (some art) := by
  cases art with
  | mk id0 t au mg ct =>
    simp only at hid htitle hne ha hm hau hmg
    subst hid
    refine ⟨{ db with articles :=
        db.articles.map (fun r => if r.id == j then ⟨j, t, ct, aid, mid⟩ else r) }, ?_, ?_⟩
    · simp [Article.save, ensureAuthor, ensureMagazine, ha, hm, DB.updateArticle]
    · have hfind : List.find? (fun r => r.id == j)
          (db.articles.map
            (fun r => if r.id == j then (⟨j, t, ct, aid, mid⟩ : ArticleRow) else r)) =
          some ⟨j, t, ct, aid, mid⟩ :=
        find?_map_ite (fun r => r.id == j) ⟨j, t, ct, aid, mid⟩ db.articles hexists (by simp)
      have hsel : DB.selectArticle
          ⟨db.authors, db.magazines,
            db.articles.map (fun r => if r.id == j then ⟨j, t, ct, aid, mid⟩ else r)⟩ j =
          some (j, t, ct, aid, mid) := by
        show (List.find? (fun r => r.id == j)
          (db.articles.map
            (fun r => if r.id == j then (⟨j, t, ct, aid, mid⟩ : ArticleRow) else r))).map
            (fun r => (r.id, r.title, r.content, r.author_id, r.magazine_id)) = _
        rw [hfind]
        rfl
      simp only [beq_iff_eq] at hsel
      have hau' : Author.find_by_id
          ⟨db.authors, db.magazines,
            db.articles.map (fun r => if r.id = j then ⟨j, t, ct, aid, mid⟩ else r)⟩ aid =
          .ok (some au) := hau
      have hmg' : Magazine.find_by_id
          ⟨db.authors, db.magazines,
            db.articles.map (fun r => if r.id = j then ⟨j, t, ct, aid, mid⟩ else r)⟩ mid =
          .ok (some mg) := hmg
      simp [Article.find_by_id, Article.new_from_db, hsel, hau', hmg', Article.make,
        pyBlank, htitle, hne]

/-- C2 is false as stated: the constructor accepts an arbitrary identifier,
and save() on an identified entity whose id matches no row is an UPDATE of
zero rows — it succeeds without writing anything, and findById then returns
`none` rather than an entity equal to the one saved. -/
theorem claim_c2_counterexample :
    Author.make "Ghost" (some 1) = .ok ⟨some 1, "Ghost"⟩ ∧
    Author.save ⟨[], [], []⟩ ⟨some 1, "Ghost"⟩ = .ok (⟨[], [], []⟩, ⟨some 1, "Ghost"⟩) ∧
    Author.find_by_id ⟨[], [], []⟩ 1 = .ok none :=
  ⟨rfl, rfl, rfl⟩

/-- C2 amended: save() then findById(id) returns an entity equal in all
fields to the one saved, provided the save actually writes a row: for an
unidentified entity whose insert succeeds (name not already taken), and for
an identified entity whose identifier is present in its table (and the
update does not violate name uniqueness).  Entity fields must be
store-normal (stripped, non-empty, category valid), and for an Article the
referenced author and magazine must themselves read back equal to the
in-memory references. -/
theorem claim_c2_roundtrip_amended :
    (∀ db (a : Author), a.id = none → pyStrip a.name = a.name → a.name ≠ "" →
      db.authors.any (fun r => r.name == a.name) = false →
      ∃ db' i, Author.save db a = .ok (db', { a with id := some i }) ∧
        Author.find_by_id db' i = .ok (some { a with id := some i })) ∧
    (∀ db (a : Author) i, a.id = some i → pyStrip a.name = a.name → a.name ≠ "" →
      db.authors.any (fun r => r.id == i) = true →
      db.authors.any (fun r => r.name == a.name && r.id != i) = false →
      ∃ db', Author.save db a = .ok (db', a) ∧ Author.find_by_id db' i = .ok (some a)) ∧
    (∀ db (m : Magazine), m.id = none → pyStrip m.name = m.name → m.name ≠ "" →
      CatValid m.category →
      db.magazines.any (fun r => r.name == m.name) = false →
      ∃ db' i, Magazine.save db m = .ok (db', { m with id := some i }) ∧
        Magazine.find_by_id db' i = .ok (some { m with id := some i })) ∧
    (∀ db (m : Magazine) i, m.id = some i → pyStrip m.name = m.name → m.name ≠ "" →
      CatValid m.category →
      db.magazines.any (fun r => r.id == i) = true →
      db.magazines.any (fun r => r.name == m.name && r.id != i) = false →
      ∃ db', Magazine.save db m = .ok (db', m) ∧
        Magazine.find_by_id db' i = .ok (some m)) ∧
    (∀ db (art : Article) aid mid, art.id = none → pyStrip art.title = art.title →
      art.title ≠ "" → art.author.id = some aid → art.magazine.id = some mid →
      Author.find_by_id db aid = .ok (some art.author) →
      Magazine.find_by_id db mid = .ok (some art.magazine) →
      ∃ db' i, Article.save db art = .ok (db', { art with id := some i }) ∧
        Article.find_by_id db' i = .ok (some { art with id := some i })) ∧
    (∀ db (art : Article) j aid mid, art.id = some j → pyStrip art.title = art.title →
      art.title ≠ "" → art.author.id = some aid → art.magazine.id = some mid →
      db.articles.any (fun r => r.id == j) = true →
      Author.find_by_id db aid = .ok (some art.author) →
      Magazine.find_by_id db mid = .ok (some art.magazine) →
      ∃ db', Article.save db art = .ok (db', art) ∧
        Article.find_by_id db' j = .ok (some art)) :=
  ⟨fun db a h1 h2 h3 h4 => author_insert_find db a h1 h2 h3 h4,
   fun db a i h1 h2 h3 h4 h5 => author_update_find db a i h1 h2 h3 h4 h5,
   fun db m h1 h2 h3 h4 h5 => magazine_insert_find db m h1 h2 h3 h4 h5,
   fun db m i h1 h2 h3 h4 h5 h6 => magazine_update_find db m i h1 h2 h3 h4 h5 h6,
   fun db art aid mid h1 h2 h3 h4 h5 h6 h7 =>
     article_insert_find db art aid mid h1 h2 h3 h4 h5 h6 h7,
   fun db art j aid mid h1 h2 h3 h4 h5 h6 h7 h8 =>
     article_update_find db art j aid mid h1 h2 h3 h4 h5 h6 h7 h8⟩

theorem claim_c2_witness :
    (∃ db' i, Author.save ⟨[], [], []⟩ ⟨none, "Alice"⟩ =
        .ok (db', ⟨some i, "Alice"⟩) ∧
      Author.find_by_id db' i = .ok (some ⟨some i, "Alice"⟩)) ∧
    (∃ db' i, Article.save ⟨[⟨1, "Alice"⟩], [⟨1, "M", some "Tech"⟩], []⟩
        ⟨none, "T", ⟨some 1, "Alice"⟩, ⟨some 1, "M", some "Tech"⟩, none⟩ =
        .ok (db', ⟨some i, "T", ⟨some 1, "Alice"⟩, ⟨some 1, "M", some "Tech"⟩, none⟩) ∧
      Article.find_by_id db' i =
        .ok (some ⟨some i, "T", ⟨some 1, "Alice"⟩, ⟨some 1, "M", some "Tech"⟩, none⟩)) :=
  ⟨claim_c2_roundtrip_amended.1 ⟨[], [], []⟩ ⟨none, "Alice"⟩ rfl rfl (by decide) rfl,
   claim_c2_roundtrip_amended.2.2.2.2.1 ⟨[⟨1, "Alice"⟩], [⟨1, "M", some "Tech"⟩], []⟩
     ⟨none, "T", ⟨some 1, "Alice"⟩, ⟨some 1, "M", some "Tech"⟩, none⟩ 1 1
     rfl rfl (by decide) rfl rfl rfl rfl⟩

/-- C9: `contributing_authors(m)`, viewed as a set, contains exactly the
author ids with strictly more than 2 stored articles whose magazine foreign
key equals `m`. -/
theorem claim_c9_contributing_authors (db : DB) (m a : Nat) :
    a ∈ Magazine.contributing_authors db m ↔
      2 < (db.articles.filter (fun r => r.author_id == a && r.magazine_id == m)).length := by
  unfold Magazine.contributing_authors
  rw [List.mem_filter, List.filter_filter]
  constructor
  · rintro ⟨_, hcnt⟩
    simpa using hcnt
  · intro hcnt
    have hpos : 0 < (db.articles.filter
        (fun r => r.author_id == a && r.magazine_id == m)).length :=
      Nat.lt_trans (by decide) hcnt
    rw [List.length_pos] at hpos
    obtain ⟨r, hr⟩ := List.exists_mem_of_ne_nil _ hpos
    rw [List.mem_filter, Bool.and_eq_true] at hr
    refine ⟨?_, by simpa using hcnt⟩
    rw [List.mem_dedup, List.mem_map]
    exact ⟨r, List.mem_filter.mpr ⟨hr.1, hr.2.2⟩, eq_of_beq hr.2.1⟩

theorem claim_c9_witness :
    (3 ∈ Magazine.contributing_authors
      ⟨[], [],
        [⟨1, "t1", none, 3, 7⟩, ⟨2, "t2", none, 3, 7⟩, ⟨3, "t3", none, 3, 7⟩,
         ⟨4, "t4", none, 4, 7⟩, ⟨5, "t5", none, 3, 8⟩]⟩ 7) ∧
    ¬ (4 ∈ Magazine.contributing_authors
      ⟨[], [],
        [⟨1, "t1", none, 3, 7⟩, ⟨2, "t2", none, 3, 7⟩, ⟨3, "t3", none, 3, 7⟩,
         ⟨4, "t4", none, 4, 7⟩, ⟨5, "t5", none, 3, 8⟩]⟩ 7) :=
  ⟨(claim_c9_contributing_authors
      ⟨[], [],
        [⟨1, "t1", none, 3, 7⟩, ⟨2, "t2", none, 3, 7⟩, ⟨3, "t3", none, 3, 7⟩,
         ⟨4, "t4", none, 4, 7⟩, ⟨5, "t5", none, 3, 8⟩]⟩ 7 3).mpr (by decide),
   fun hmem => absurd ((claim_c9_contributing_authors
      ⟨[], [],
        [⟨1, "t1", none, 3, 7⟩, ⟨2, "t2", none, 3, 7⟩, ⟨3, "t3", none, 3, 7⟩,
         ⟨4, "t4", none, 4, 7⟩, ⟨5, "t5", none, 3, 8⟩]⟩ 7 4).mp hmem) (by decide)⟩

theorem maxCountRow_some_isSome (q : Nat × Nat) (l : List (Nat × Nat)) :
    ∃ p, maxCountRow (some q) l = some p := by
  induction l generalizing q with
  | nil => exact ⟨q, rfl⟩
  | cons p l ih =>
    simp only [maxCountRow]
    exact ih _

theorem maxCountRow_spec (l : List (Nat × Nat)) :
    ∀ acc q, maxCountRow acc l = some q →
      (acc = some q ∨ q ∈ l) ∧ (∀ p ∈ l, p.2 ≤ q.2) ∧
      (∀ a, acc = some a → a.2 ≤ q.2) := by
  induction l with
  | nil =>
    intro acc q h
    cases acc with
    | none => simp [maxCountRow] at h
    | some a =>
      simp only [maxCountRow, Option.some_inj] at h
      subst h
      refine ⟨Or.inl rfl, by simp, ?_⟩
      intro a' ha'
      cases Option.some_inj.mp ha'
      exact le_refl _
  | cons p l ih =>
    intro acc q h
    cases acc with
    | none =>
      simp only [maxCountRow] at h
      obtain ⟨hmem, hbound, hacc⟩ := ih (some p) q h
      refine ⟨?_, ?_, ?_⟩
      · rcases hmem with h' | h'
        · cases Option.some_inj.mp h'
          exact Or.inr (List.mem_cons_self p l)
        · exact Or.inr (List.mem_cons_of_mem _ h')
      · intro x hx
        rcases List.mem_cons.mp hx with rfl | hx'
        · exact hacc x rfl
        · exact hbound x hx'
      · intro a ha
        cases ha
    | some q0 =>
      simp only [maxCountRow] at h
      obtain ⟨hmem, hbound, hacc⟩ := ih (some (if p.2 > q0.2 then p else q0)) q h
      have hw : (if p.2 > q0.2 then p else q0).2 ≤ q.2 := hacc _ rfl
      have hp_le : p.2 ≤ (if p.2 > q0.2 then p else q0).2 := by
        by_cases hc : p.2 > q0.2
        · simp [hc]
        · simp only [if_neg hc]
          exact Nat.le_of_not_lt hc
      have hq0_le : q0.2 ≤ (if p.2 > q0.2 then p else q0).2 := by
        by_cases hc : p.2 > q0.2
        · simp only [if_pos hc]
          exact Nat.le_of_lt hc
        · simp [hc]
      refine ⟨?_, ?_, ?_⟩
      · rcases hmem with h' | h'
        · by_cases hc : p.2 > q0.2
          · rw [if_pos hc] at h'
            cases Option.some_inj.mp h'
            exact Or.inr (List.mem_cons_self p l)
          · rw [if_neg hc] at h'
            exact Or.inl h'
        · exact Or.inr (List.mem_cons_of_mem _ h')
      · intro x hx
        rcases List.mem_cons.mp hx with rfl | hx'
        · exact le_trans hp_le hw
        · exact hbound x hx'
      · intro a ha
        cases Option.some_inj.mp ha
        exact le_trans hq0_le hw

/-- C8: `top_publisher` returns `none` exactly when no articles exist;
when it returns some magazine id, that id belongs to a stored article and
its article count is greatest among all magazine ids (which row is chosen
on ties is implementation-defined and not asserted). -/
theorem claim_c8_top_publisher (db : DB) :
    (Magazine.top_publisher db = none ↔ db.articles = []) ∧
    (∀ m, Magazine.top_publisher db = some m →
      (∃ r ∈ db.articles, r.magazine_id = m) ∧
      ∀ k, (db.articles.filter (fun r => r.magazine_id == k)).length ≤
        (db.articles.filter (fun r => r.magazine_id == m)).length) := by
  constructor
  · constructor
    · intro h
      unfold Magazine.top_publisher at h
      rw [Option.map_eq_none'] at h
      cases hc : articleCounts db with
      | nil =>
        unfold articleCounts at hc
        rw [List.map_eq_nil_iff, List.dedup_eq_nil, List.map_eq_nil_iff] at hc
        exact hc
      | cons p l =>
        rw [hc] at h
        obtain ⟨w, hw⟩ := maxCountRow_some_isSome p l
        simp only [maxCountRow] at h
        rw [hw] at h
        cases h
    · intro h
      simp [Magazine.top_publisher, articleCounts, h, maxCountRow]
  · intro m hm
    unfold Magazine.top_publisher at hm
    rw [Option.map_eq_some'] at hm
    obtain ⟨q, hq, hq1⟩ := hm
    obtain ⟨hmem, hbound, _⟩ := maxCountRow_spec (articleCounts db) none q hq
    rcases hmem with h' | h'
    · cases h'
    · unfold articleCounts at h'
      rw [List.mem_map] at h'
      obtain ⟨g, hg, hgq⟩ := h'
      cases hgq
      simp only at hq1
      subst hq1
      constructor
      · rw [List.mem_dedup, List.mem_map] at hg
        obtain ⟨r, hr, hrm⟩ := hg
        exact ⟨r, hr, hrm⟩
      · intro k
        by_cases hk : k ∈ (db.articles.map (fun r => r.magazine_id)).dedup
        · have hkc : (k, (db.articles.filter (fun r => r.magazine_id == k)).length) ∈
              articleCounts db := by
            unfold articleCounts
            exact List.mem_map.mpr ⟨k, hk, rfl⟩
          exact hbound _ hkc
        · have hempty : db.articles.filter (fun r => r.magazine_id == k) = [] := by
            rw [List.filter_eq_nil_iff]
            intro r hr hbeq
            exact hk (List.mem_dedup.mpr
              (List.mem_map.mpr ⟨r, hr, eq_of_beq hbeq⟩))
          rw [hempty]
          exact Nat.zero_le _

theorem claim_c8_witness :
    (Magazine.top_publisher ⟨[], [], []⟩ = none ↔ ([] : List ArticleRow) = []) ∧
    (∃ r ∈ [(⟨1, "t1", none, 1, 7⟩ : ArticleRow), ⟨2, "t2", none, 1, 7⟩,
        ⟨3, "t3", none, 1, 8⟩], r.magazine_id = 7) ∧
    ∀ k, (([(⟨1, "t1", none, 1, 7⟩ : ArticleRow), ⟨2, "t2", none, 1, 7⟩,
        ⟨3, "t3", none, 1, 8⟩]).filter (fun r => r.magazine_id == k)).length ≤
      (([(⟨1, "t1", none, 1, 7⟩ : ArticleRow), ⟨2, "t2", none, 1, 7⟩,
        ⟨3, "t3", none, 1, 8⟩]).filter (fun r => r.magazine_id == 7)).length :=
  ⟨(claim_c8_top_publisher ⟨[], [], []⟩).1,
   (claim_c8_top_publisher ⟨[], [],
      [⟨1, "t1", none, 1, 7⟩, ⟨2, "t2", none, 1, 7⟩, ⟨3, "t3", none, 1, 8⟩]⟩).2 7 rfl⟩

theorem exceptMap_ok_mem {α β : Type _} (f : α → Except Err β) (l : List α) (ys : List β)
    (h : exceptMap f l = .ok ys) : ∀ y ∈ ys, ∃ x ∈ l, f x = .ok y := by
  induction l generalizing ys with
  | nil =>
    simp only [exceptMap, Except.ok.injEq] at h
    subst h
    intro y hy
    cases hy
  | cons x xs ih =>
    intro y hy
    cases hfx : f x with
    | error e => simp [exceptMap, hfx] at h
    | ok y0 =>
      cases hrest : exceptMap f xs with
      | error e => simp [exceptMap, hfx, hrest] at h
      | ok ys0 =>
        simp only [exceptMap, hfx, hrest, Except.ok.injEq] at h
        subst h
        rcases List.mem_cons.mp hy with rfl | hy'
        · exact ⟨x, List.mem_cons_self x xs, hfx⟩
        · obtain ⟨x', hx', hfx'⟩ := ih ys0 hrest y hy'
          exact ⟨x', List.mem_cons_of_mem _ hx', hfx'⟩

theorem make_ok_category (n : String) (c : Option String) (i : Option Nat) (m : Magazine)
    (h : Magazine.make n c i = .ok m) : ∀ s, m.category = some s → s ≠ "" := by
  cases hbn : pyBlank n with
  | true => simp [Magazine.make, Magazine.setName, hbn] at h
  | false =>
    cases c with
    | none =>
      simp only [Magazine.make, Magazine.setName, hbn, Bool.false_eq_true, if_false,
        Magazine.setCategory, Except.ok.injEq] at h
      subst h
      intro s hs
      cases hs
    | some v =>
      cases hbv : pyBlank v with
      | true => simp [Magazine.make, Magazine.setName, Magazine.setCategory, hbn, hbv] at h
      | false =>
        simp only [Magazine.make, Magazine.setName, Magazine.setCategory, hbn, hbv,
          Bool.false_eq_true, if_false, Except.ok.injEq] at h
        subst h
        intro s hs
        cases Option.some_inj.mp hs
        simpa [pyBlank] using hbv

theorem magazines_categories_valid (db : DB) (a : Author) (mags : List Magazine)
    (h : Author.magazines db a = .ok mags) :
    ∀ m ∈ mags, ∀ s, m.category = some s → s ≠ "" := by
  cases hai : a.id with
  | none =>
    simp only [Author.magazines, hai, Except.ok.injEq] at h
    subst h
    intro m hm
    cases hm
  | some i =>
    simp only [Author.magazines, hai] at h
    intro m hm s hs
    obtain ⟨r, _, hr⟩ := exceptMap_ok_mem _ _ _ h m hm
    exact make_ok_category _ _ _ _ hr s hs

/-- C10: for an author whose `magazines()` call succeeds, `topic_areas()`
returns a sorted list with no duplicates whose members are exactly the
non-null categories of those magazines. -/
theorem claim_c10_topic_areas (db : DB) (a : Author) (mags : List Magazine)
    (h : Author.magazines db a = .ok mags) :
    ∃ cats, Author.topic_areas db a = .ok cats ∧
      cats.Sorted (· ≤ ·) ∧ cats.Nodup ∧
      (∀ c, c ∈ cats ↔ ∃ m ∈ mags, m.category = some c) := by
  have hvalid := magazines_categories_valid db a mags h
  refine ⟨List.insertionSort (· ≤ ·)
      ((mags.filterMap (fun m =>
        match m.category with
        | some c => if c == "" then none else some c
        | none => none)).dedup), ?_, ?_, ?_, ?_⟩
  · simp [Author.topic_areas, h]
  · exact List.sorted_insertionSort _ _
  · exact ((List.perm_insertionSort _ _).nodup_iff).mpr (List.nodup_dedup _)
  · intro c
    rw [List.mem_insertionSort, List.mem_dedup, List.mem_filterMap]
    constructor
    · rintro ⟨m, hm, hfm⟩
      cases hcat : m.category with
      | none =>
        simp only [hcat] at hfm
        cases hfm
      | some c' =>
        simp only [hcat] at hfm
        by_cases hc' : (c' == "") = true
        · rw [if_pos hc'] at hfm
          cases hfm
        · rw [if_neg hc'] at hfm
          cases Option.some_inj.mp hfm
          exact ⟨m, hm, hcat⟩
    · rintro ⟨m, hm, hcat⟩
      refine ⟨m, hm, ?_⟩
      rw [hcat]
      have hcne : (c == "") = false := by
        rw [beq_eq_false_iff_ne]
        exact hvalid m hm c hcat
      simp [hcne]

theorem claim_c10_witness :
    Author.magazines
        ⟨[⟨1, "A"⟩],
         [⟨1, "M1", some "Tech"⟩, ⟨2, "M2", none⟩, ⟨3, "M3", some "Art"⟩],
         [⟨1, "t1", none, 1, 1⟩, ⟨2, "t2", none, 1, 2⟩, ⟨3, "t3", none, 1, 3⟩]⟩
        ⟨some 1, "A"⟩ =
      .ok [⟨some 1, "M1", some "Tech"⟩, ⟨some 2, "M2", none⟩, ⟨some 3, "M3", some "Art"⟩] ∧
    ∃ cats, Author.topic_areas
        ⟨[⟨1, "A"⟩],
         [⟨1, "M1", some "Tech"⟩, ⟨2, "M2", none⟩, ⟨3, "M3", some "Art"⟩],
         [⟨1, "t1", none, 1, 1⟩, ⟨2, "t2", none, 1, 2⟩, ⟨3, "t3", none, 1, 3⟩]⟩
        ⟨some 1, "A"⟩ = .ok cats ∧
      cats.Sorted (· ≤ ·) ∧ cats.Nodup ∧
      (∀ c, c ∈ cats ↔
        ∃ m ∈ [(⟨some 1, "M1", some "Tech"⟩ : Magazine), ⟨some 2, "M2", none⟩,
          ⟨some 3, "M3", some "Art"⟩], m.category = some c) :=
  ⟨rfl, claim_c10_topic_areas
    ⟨[⟨1, "A"⟩],
     [⟨1, "M1", some "Tech"⟩, ⟨2, "M2", none⟩, ⟨3, "M3", some "Art"⟩],
     [⟨1, "t1", none, 1, 1⟩, ⟨2, "t2", none, 1, 2⟩, ⟨3, "t3", none, 1, 3⟩]⟩
    ⟨some 1, "A"⟩
    [⟨some 1, "M1", some "Tech"⟩, ⟨some 2, "M2", none⟩, ⟨some 3, "M3", some "Art"⟩] rfl⟩

end MagSql
